import Mathlib

/-!
Shallow embedding of the EduBot account/session/analytics core
(`src/database.py` and the decision logic of `src/auth.py`).

Modelling decisions, each stated once here:
* SQLite stores are modelled as lists of rows kept in rowid (insertion)
  order; `SELECT ... ORDER BY` is modelled as a stable insertion sort on
  that scan order.
* SQLite does not enforce `FOREIGN KEY` constraints unless
  `PRAGMA foreign_keys = ON` is issued; the code never issues it, so the
  model performs no referential checks.
* `uuid.uuid4()` is modelled by a fresh-identifier counter `nextUuid` in
  the store state; each call draws the counter value and bumps it
  (ideal collision-free uuids).
* `CURRENT_TIMESTAMP` is modelled by a `clock` field, constant within one
  call and advanced between calls by an explicit `tick` step.
* `bcrypt.hashpw`/`bcrypt.checkpw` are idealised: the verifier determines
  exactly the hashed password (a check succeeds iff the password equals
  the one that was hashed), with no collisions.
* Python `sqlite3` commits explicitly; a caught `IntegrityError` followed
  by `conn.close()` rolls the open transaction back, so a failed
  `create_user` leaves every table unchanged.
-/

/-- Message type: the `message_type` column is constrained by
`CHECK(message_type IN ('text', 'image'))` and every in-repo caller passes
one of the two literals. -/
inductive MsgType where
  | text
  | image
deriving DecidableEq, Repr

/-- One row of the `users` table (`src/database.py`, `init_database`). -/
structure UserRow where
  user_id : Nat
  username : String
  email : String
  password_hash : String
  role : String
  full_name : String
  department : Option String
  created_at : Nat
  last_login : Option Nat
  is_active : Bool
deriving DecidableEq, Repr

/-- One row of the `chat_sessions` table. -/
structure SessionRow where
  session_id : Nat
  user_id : Nat
  created_at : Nat
  last_activity : Nat
deriving DecidableEq, Repr

/-- One row of the `messages` table. -/
structure MessageRow where
  message_id : Nat
  session_id : Nat
  user_id : Nat
  message_type : MsgType
  user_message : Option String
  image_path : Option String
  bot_response : String
  timestamp : Nat
deriving DecidableEq, Repr

/-- One row of the `user_analytics` table. -/
structure AnalyticsRow where
  user_id : Nat
  total_queries : Nat
  text_queries : Nat
  image_queries : Nat
  last_query_date : Option Nat
deriving DecidableEq, Repr

/-- The whole durable store plus the uuid source and the wall clock. -/
structure DB where
  users : List UserRow
  sessions : List SessionRow
  messages : List MessageRow
  analytics : List AnalyticsRow
  nextUuid : Nat
  clock : Nat
deriving DecidableEq, Repr

/-- The store right after `init_database` on a fresh file: four empty
tables. -/
def emptyDB : DB := ⟨[], [], [], [], 0, 0⟩

/-- Ideal model of `bcrypt.hashpw(password, gensalt())`. -/
def hashpw (password : String) : String := "bcrypt" ++ password

/-- Ideal model of `bcrypt.checkpw`: succeeds iff `hash` is the verifier
of exactly this password. -/
def checkpw (password hash : String) : Bool := hash == hashpw password

/-- The projection returned by `Database.authenticate_user` on success:
the dict literal at `src/database.py:126-133`.  It has exactly these six
fields; `password_hash` is not among them. -/
structure UserInfo where
  user_id : Nat
  username : String
  email : String
  role : String
  full_name : String
  department : Option String
deriving DecidableEq, Repr

/-- Database.create_user (`src/database.py:82-108`).  The `INSERT INTO
users` raises `sqlite3.IntegrityError` when the fresh `user_id`, the
`username` or the `email` collides with an existing row (UNIQUE
constraints) or when `role` fails its CHECK constraint; the handler rolls
back and returns `False`.  Otherwise the all-zero `user_analytics` row is
inserted in the same transaction which then commits. -/
def create_user (db : DB) (username email password role full_name : String)
    (department : Option String) : Bool × DB :=
  if db.users.any (fun u =>
        u.user_id == db.nextUuid || u.username == username || u.email == email)
      || !(role == "student" || role == "faculty") then
    (false, { db with nextUuid := db.nextUuid + 1 })
  else
    (true, { db with
      users := db.users ++
        [⟨db.nextUuid, username, email, hashpw password, role, full_name,
          department, db.clock, none, true⟩],
      analytics := db.analytics ++ [⟨db.nextUuid, 0, 0, 0, none⟩],
      nextUuid := db.nextUuid + 1 })

/-- SELECT ... FROM users WHERE username = ? followed by fetchone: the
first row in scan order whose `username` matches. -/
def findUser (db : DB) (username : String) : Option UserRow :=
  db.users.find? (fun u => u.username == username)

/-- Database.update_last_login (`src/database.py:136-144`). -/
def update_last_login (db : DB) (user_id : Nat) : DB :=
  { db with users := db.users.map (fun u =>
      if u.user_id == user_id then { u with last_login := some db.clock } else u) }

/-- Database.authenticate_user (`src/database.py:110-134`).  Succeeds iff
a row with this username exists, is active and the password verifies;
then last_login is updated and the six-field projection returned.  Every
failure returns `None` with the store untouched. -/
def authenticate_user (db : DB) (username password : String) :
    Option UserInfo × DB :=
  match findUser db username with
  | some u =>
    if u.is_active && checkpw password u.password_hash then
      (some ⟨u.user_id, u.username, u.email, u.role, u.full_name, u.department⟩,
       update_last_login db u.user_id)
    else (none, db)
  | none => (none, db)

/-- Database.create_chat_session (`src/database.py:146-159`).  Draws a
fresh uuid and inserts the session row; no user-existence check is made
(the FOREIGN KEY is unenforced) and nothing can fail. -/
def create_chat_session (db : DB) (user_id : Nat) : Nat × DB :=
  (db.nextUuid, { db with
    sessions := db.sessions ++ [⟨db.nextUuid, user_id, db.clock, db.clock⟩],
    nextUuid := db.nextUuid + 1 })

/-- The per-row effect of the `UPDATE user_analytics` statement in
`save_message`: rows whose `user_id` matches get `total_queries + 1`, the
CASE-selected type counter `+ 1`, and `last_query_date` set to now. -/
def bumpAnalytics (uid : Nat) (ty : MsgType) (now : Nat) (a : AnalyticsRow) :
    AnalyticsRow :=
  if a.user_id == uid then
    { a with
      total_queries := a.total_queries + 1,
      text_queries := a.text_queries + (match ty with | .text => 1 | .image => 0),
      image_queries := a.image_queries + (match ty with | .image => 1 | .text => 0),
      last_query_date := some now }
  else a

/-- The per-row effect of the `UPDATE chat_sessions SET last_activity`
statement in `save_message`. -/
def touchSession (sid : Nat) (now : Nat) (s : SessionRow) : SessionRow :=
  if s.session_id == sid then { s with last_activity := now } else s

/-- Database.save_message (`src/database.py:161-192`).  Inserts the
message row unconditionally (no session or input validation, FOREIGN KEYs
unenforced), then runs the two UPDATEs, which touch only rows whose key
matches (zero rows affected is not an error), and commits. -/
def save_message (db : DB) (session_id user_id : Nat) (message_type : MsgType)
    (user_message image_path : Option String) (bot_response : String) : DB :=
  { db with
    messages := db.messages ++
      [⟨db.nextUuid, session_id, user_id, message_type, user_message,
        image_path, bot_response, db.clock⟩],
    sessions := db.sessions.map (touchSession session_id db.clock),
    analytics := db.analytics.map (bumpAnalytics user_id message_type db.clock),
    nextUuid := db.nextUuid + 1 }

/-- Stable insertion of one element into a list sorted descending by
`key`: the element goes after every element whose key is ≥ its own,
matching how rows already emitted in scan order keep their relative
position in the sorter. -/
def insertByKey (key : α → Int) (m : α) : List α → List α
  | [] => [m]
  | x :: xs => if key m ≤ key x then x :: insertByKey key m xs else m :: x :: xs

/-- Model of `ORDER BY key DESC` over rows produced in scan order: a
stable sort, descending by `key`. -/
def sortByKeyDesc (key : α → Int) (l : List α) : List α :=
  l.foldl (fun acc m => insertByKey key m acc) []

/-- True iff a `chat_sessions` row with this id exists (`session_id` is
UNIQUE, so at most one can). -/
def sessionExists (db : DB) (sid : Nat) : Bool :=
  db.sessions.any (fun s => s.session_id == sid)

/-- The rows selected by the query of `get_chat_history` before ORDER BY:
messages of this user joined against `chat_sessions` on `session_id`
(`session_id` is UNIQUE, so the join keeps or drops each message whole),
in messages-table scan order. -/
def historyRows (db : DB) (user_id : Nat) : List MessageRow :=
  db.messages.filter (fun m => m.user_id == user_id && sessionExists db m.session_id)

/-- Sort key of `ORDER BY m.timestamp DESC`. -/
def tsKey (m : MessageRow) : Int := m.timestamp

/-- The five selected columns of one history row
(`src/database.py:211-217`). -/
structure HistoryEntry where
  message_type : MsgType
  user_message : Option String
  image_path : Option String
  bot_response : String
  timestamp : Nat
deriving DecidableEq, Repr

/-- Projection of a message row to the returned dict. -/
def projectHistory (m : MessageRow) : HistoryEntry :=
  ⟨m.message_type, m.user_message, m.image_path, m.bot_response, m.timestamp⟩

/-- Database.get_chat_history (`src/database.py:194-217`): filter, ORDER
BY timestamp DESC, LIMIT, project. -/
def get_chat_history (db : DB) (user_id : Nat) (limit : Nat) :
    List HistoryEntry :=
  ((sortByKeyDesc tsKey (historyRows db user_id)).take limit).map projectHistory

/-- The counters view returned by `get_user_analytics`
(`src/database.py:219-239`): the row if present, all zeroes otherwise. -/
structure AnalyticsView where
  total_queries : Nat
  text_queries : Nat
  image_queries : Nat
  last_query_date : Option Nat
deriving DecidableEq, Repr

/-- Database.get_user_analytics (`src/database.py:219-239`). -/
def get_user_analytics (db : DB) (user_id : Nat) : AnalyticsView :=
  match db.analytics.find? (fun a => a.user_id == user_id) with
  | some a => ⟨a.total_queries, a.text_queries, a.image_queries, a.last_query_date⟩
  | none => ⟨0, 0, 0, none⟩

/-- The LEFT JOIN of one active user against `user_analytics`
(`user_id` gets at most one analytics row in any state the operations
produce). -/
def joinRow (db : DB) (u : UserRow) : UserRow × Option AnalyticsRow :=
  (u, db.analytics.find? (fun a => a.user_id == u.user_id))

/-- Sort key of `ORDER BY ua.total_queries DESC`: SQL NULL (user without
an analytics row) sorts below every number. -/
def platKey : UserRow × Option AnalyticsRow → Int
  | (_, none) => -1
  | (_, some a) => a.total_queries

/-- The nine selected columns of one platform-dashboard row
(`src/database.py:258-268`); NULL counters are projected to 0 by
`row or 0`. -/
structure PlatformRow where
  username : String
  full_name : String
  role : String
  department : Option String
  created_at : Nat
  total_queries : Nat
  text_queries : Nat
  image_queries : Nat
  last_query_date : Option Nat
deriving DecidableEq, Repr

/-- Projection of one joined row to the returned dict. -/
def platProject : UserRow × Option AnalyticsRow → PlatformRow
  | (u, none) => ⟨u.username, u.full_name, u.role, u.department, u.created_at,
      0, 0, 0, none⟩
  | (u, some a) => ⟨u.username, u.full_name, u.role, u.department, u.created_at,
      a.total_queries, a.text_queries, a.image_queries, a.last_query_date⟩

/-- The joined rows of `get_all_users_analytics` before ORDER BY: active
users in users-table scan order, LEFT JOINed to their counters. -/
def platformRows (db : DB) : List (UserRow × Option AnalyticsRow) :=
  (db.users.filter (fun u => u.is_active)).map (joinRow db)

/-- Database.get_all_users_analytics (`src/database.py:241-268`):
active-user filter, LEFT JOIN, ORDER BY total_queries DESC, project. -/
def get_all_users_analytics (db : DB) : List PlatformRow :=
  (sortByKeyDesc platKey (platformRows db)).map platProject

/-- AuthManager.register_user (`src/auth.py:20-45`): the five input
validations in source order, then `create_user`, whose boolean failure is
reported uniformly as a duplicate-identity message.  Python's substring
test `"@" in email` for the one-character needle is char containment,
modelled on the char list; the blank test `not full_name.strip()` holds
iff every character of the name is whitespace, modelled likewise. -/
def register_user (db : DB) (username email password confirm_password role
    full_name : String) (department : Option String) : (Bool × String) × DB :=
  if username.length < 3 then
    ((false, "Username must be at least 3 characters long"), db)
  else if password.length < 6 then
    ((false, "Password must be at least 6 characters long"), db)
  else if password != confirm_password then
    ((false, "Passwords do not match"), db)
  else if !(email.data.contains '@') || !(email.data.contains '.') then
    ((false, "Please enter a valid email address"), db)
  else if full_name.data.all Char.isWhitespace then
    ((false, "Full name is required"), db)
  else
    match create_user db username email password role full_name department with
    | (true, db1) => ((true, "Registration successful! Please log in."), db1)
    | (false, db1) => ((false, "Username or email already exists"), db1)

/-- AuthManager.login_user (`src/auth.py:47-60`): empty-field guard, then
`authenticate_user`; on success a fresh chat session is started and its
id returned, on failure the undifferentiated invalid-credentials
message. -/
def login_user (db : DB) (username password : String) :
    (Bool × String) × DB × Option Nat :=
  if username == "" || password == "" then
    ((false, "Please enter both username and password"), db, none)
  else
    match authenticate_user db username password with
    | (some info, db1) =>
      let sd := create_chat_session db1 info.user_id
      ((true, "Welcome back, " ++ info.full_name ++ "!"), sd.2, some sd.1)
    | (none, db1) => ((false, "Invalid username or password"), db1, none)

/-- States of the store reachable from a fresh database through the
modelled operations, with clock ticks interleaved arbitrarily. -/
inductive Reachable : DB → Prop where
  | init : Reachable emptyDB
  | tick (db : DB) : Reachable db → Reachable { db with clock := db.clock + 1 }
  | register (db : DB) (un em pw r fn : String) (dep : Option String) :
      Reachable db → Reachable (create_user db un em pw r fn dep).2
  | auth (db : DB) (un pw : String) :
      Reachable db → Reachable (authenticate_user db un pw).2
  | start (db : DB) (uid : Nat) :
      Reachable db → Reachable (create_chat_session db uid).2
  | append (db : DB) (sid uid : Nat) (ty : MsgType)
      (um ip : Option String) (br : String) :
      Reachable db → Reachable (save_message db sid uid ty um ip br)

/-- Repeated `save_message` with the same arguments, n times. -/
def appendN (db : DB) (sid uid : Nat) (ty : MsgType)
    (um ip : Option String) (br : String) : Nat → DB
  | 0 => db
  | n + 1 => save_message (appendN db sid uid ty um ip br n) sid uid ty um ip br

/-- A store with one registered user, produced by the modelled
registration itself; used as a concrete evaluation point. -/
def dbAlice : DB :=
  (create_user emptyDB "alice" "a@x.edu" "password1" "student" "Alice A" none).2

/-- A store with two registered users, bob first and alice second, both
with zero queries; used as a concrete evaluation point for the platform
snapshot ordering. -/
def dbBobAlice : DB :=
  (create_user (create_user emptyDB "bob" "b@x.edu" "password1" "student"
    "Bob B" none).2 "alice" "a@x.edu" "password2" "student" "Alice A" none).2

/-- A store holding one active and one deactivated account; used as a
concrete evaluation point for authentication failures. -/
def dbCarol : DB :=
  ⟨[⟨0, "alice", "a@x.edu", hashpw "password1", "student", "Alice A", none, 0, none, true⟩,
    ⟨1, "carol", "c@x.edu", hashpw "password2", "student", "Carol C", none, 0, none, false⟩],
   [], [], [⟨0, 0, 0, 0, none⟩, ⟨1, 0, 0, 0, none⟩], 2, 0⟩

/-! Generic facts about the stable descending sort. -/

theorem perm_insertByKey (key : α → Int) (m : α) (l : List α) :
    List.Perm (insertByKey key m l) (m :: l) := by
  induction l with
  | nil => simp [insertByKey]
  | cons x xs ih =>
    by_cases hc : key m ≤ key x
    · simp only [insertByKey, if_pos hc]
      exact (ih.cons x).trans (List.Perm.swap m x xs)
    · simp [insertByKey, if_neg hc]

theorem pairwise_insertByKey {key : α → Int} {m : α} {l : List α}
    (h : l.Pairwise (fun a b => key b ≤ key a)) :
    (insertByKey key m l).Pairwise (fun a b => key b ≤ key a) := by
  induction l with
  | nil => simp [insertByKey]
  | cons x xs ih =>
    rcases List.pairwise_cons.mp h with ⟨hx, hxs⟩
    by_cases hc : key m ≤ key x
    · simp only [insertByKey, if_pos hc]
      refine List.pairwise_cons.mpr ⟨?_, ih hxs⟩
      intro b hb
      rcases List.mem_cons.mp ((perm_insertByKey key m xs).mem_iff.mp hb) with rfl | hb
      · exact hc
      · exact hx b hb
    · have hxm : key x ≤ key m := le_of_lt (lt_of_not_le hc)
      simp only [insertByKey, if_neg hc]
      refine List.pairwise_cons.mpr ⟨?_, h⟩
      intro b hb
      rcases List.mem_cons.mp hb with rfl | hb
      · exact hxm
      · exact le_trans (hx b hb) hxm

theorem filter_insertByKey {key : α → Int} {m : α} {l : List α} (t : Int)
    (h : l.Pairwise (fun a b => key b ≤ key a)) :
    (insertByKey key m l).filter (fun a => key a == t) =
      l.filter (fun a => key a == t) ++ (if key m == t then [m] else []) := by
  induction l with
  | nil =>
    by_cases hmt : (key m == t) = true
    · simp [insertByKey, List.filter_cons, hmt]
    · simp [insertByKey, List.filter_cons, hmt]
  | cons x xs ih =>
    rcases List.pairwise_cons.mp h with ⟨hx, hxs⟩
    by_cases hc : key m ≤ key x
    · simp only [insertByKey, if_pos hc, List.filter_cons]
      rw [ih hxs]
      by_cases hxt : (key x == t) = true
      · simp [hxt]
      · simp [hxt]
    · have hxm : key x < key m := lt_of_not_le hc
      simp only [insertByKey, if_neg hc, List.filter_cons]
      by_cases hmt : (key m == t) = true
      · have htm : key m = t := by simpa using hmt
        have hnil : (x :: xs).filter (fun a => key a == t) = [] := by
          rw [List.filter_eq_nil_iff]
          intro a ha
          rcases List.mem_cons.mp ha with rfl | ha
          · simp; omega
          · have : key a ≤ key x := hx a ha
            simp; omega
        rw [List.filter_cons] at hnil
        simp only [hmt, if_true, hnil]
        by_cases hxt : (key x == t) = true
        · have : key x = t := by simpa using hxt
          omega
        · simp only [hxt] at hnil ⊢
          simp [hnil]
      · simp only [hmt, if_false]
        by_cases hxt : (key x == t) = true
        · simp [hxt]
        · simp [hxt]

theorem sortAux_perm (key : α → Int) (l acc : List α) :
    List.Perm (l.foldl (fun acc m => insertByKey key m acc) acc) (acc ++ l) := by
  induction l generalizing acc with
  | nil => simp
  | cons m l ih =>
    simp only [List.foldl_cons]
    exact ((ih (insertByKey key m acc)).trans
      (((perm_insertByKey key m acc).append_right l))).trans
      List.perm_middle.symm

theorem sortAux_pairwise (key : α → Int) (l acc : List α)
    (h : acc.Pairwise (fun a b => key b ≤ key a)) :
    (l.foldl (fun acc m => insertByKey key m acc) acc).Pairwise
      (fun a b => key b ≤ key a) := by
  induction l generalizing acc with
  | nil => simpa
  | cons m l ih => exact ih _ (pairwise_insertByKey h)

theorem sortAux_filter (key : α → Int) (t : Int) (l acc : List α)
    (h : acc.Pairwise (fun a b => key b ≤ key a)) :
    (l.foldl (fun acc m => insertByKey key m acc) acc).filter
        (fun a => key a == t) =
      acc.filter (fun a => key a == t) ++ l.filter (fun a => key a == t) := by
  induction l generalizing acc with
  | nil => simp
  | cons m l ih =>
    simp only [List.foldl_cons]
    rw [ih _ (pairwise_insertByKey h), filter_insertByKey t h, List.filter_cons]
    by_cases hmt : (key m == t) = true
    · simp [hmt, List.append_assoc]
    · simp [hmt]

theorem sortByKeyDesc_perm (key : α → Int) (l : List α) :
    List.Perm (sortByKeyDesc key l) l := by
  simpa using sortAux_perm key l []

theorem sortByKeyDesc_pairwise (key : α → Int) (l : List α) :
    (sortByKeyDesc key l).Pairwise (fun a b => key b ≤ key a) :=
  sortAux_pairwise key l [] (by simp)

theorem sortByKeyDesc_filter (key : α → Int) (t : Int) (l : List α) :
    (sortByKeyDesc key l).filter (fun a => key a == t) =
      l.filter (fun a => key a == t) := by
  simpa using sortAux_filter key t l [] (by simp)

/-! Facts about the row-updating maps of save_message and about lookups. -/

theorem touchSession_session_id (sid now : Nat) (s : SessionRow) :
    (touchSession sid now s).session_id = s.session_id := by
  unfold touchSession; split <;> rfl

theorem bumpAnalytics_user_id (uid : Nat) (ty : MsgType) (now : Nat)
    (a : AnalyticsRow) : (bumpAnalytics uid ty now a).user_id = a.user_id := by
  unfold bumpAnalytics; split <;> rfl

theorem map_touchSession_of_absent {sid now : Nat} {l : List SessionRow}
    (h : ∀ s ∈ l, s.session_id ≠ sid) : l.map (touchSession sid now) = l := by
  induction l with
  | nil => rfl
  | cons s l ih =>
    have hs : (s.session_id == sid) = false :=
      beq_eq_false_iff_ne.mpr (h s (List.mem_cons_self s l))
    simp [touchSession, hs, ih (fun x hx => h x (List.mem_cons_of_mem s hx))]

theorem map_bumpAnalytics_of_absent {uid : Nat} {ty : MsgType} {now : Nat}
    {l : List AnalyticsRow} (h : ∀ a ∈ l, a.user_id ≠ uid) :
    l.map (bumpAnalytics uid ty now) = l := by
  induction l with
  | nil => rfl
  | cons a l ih =>
    have ha : (a.user_id == uid) = false :=
      beq_eq_false_iff_ne.mpr (h a (List.mem_cons_self a l))
    simp [bumpAnalytics, ha, ih (fun x hx => h x (List.mem_cons_of_mem a hx))]

theorem find?_map_bumpAnalytics (uid : Nat) (ty : MsgType) (now : Nat)
    (l : List AnalyticsRow) :
    (l.map (bumpAnalytics uid ty now)).find? (fun a => a.user_id == uid) =
      (l.find? (fun a => a.user_id == uid)).map (bumpAnalytics uid ty now) := by
  induction l with
  | nil => rfl
  | cons a l ih =>
    by_cases hc : (a.user_id == uid) = true
    · simp [List.find?, bumpAnalytics_user_id, hc]
    · simp [List.find?, bumpAnalytics_user_id, hc, ih]

theorem any_map_bumpAnalytics (uid : Nat) (ty : MsgType) (now : Nat)
    (l : List AnalyticsRow) :
    (l.map (bumpAnalytics uid ty now)).any (fun a => a.user_id == uid) =
      l.any (fun a => a.user_id == uid) := by
  induction l with
  | nil => rfl
  | cons a l ih => simp [List.any_cons, ih, bumpAnalytics_user_id]

theorem find?_append_none {p : α → Bool} {l1 : List α} (l2 : List α)
    (h : l1.find? p = none) : (l1 ++ l2).find? p = l2.find? p := by
  induction l1 with
  | nil => rfl
  | cons a l ih =>
    by_cases hc : p a
    · rw [List.find?_cons_of_pos _ hc] at h
      exact Option.noConfusion h
    · rw [List.find?_cons_of_neg _ hc] at h
      rw [List.cons_append, List.find?_cons_of_neg _ hc]
      exact ih h

/-! State-preservation facts about the operations. -/

theorem create_user_other_tables (db : DB) (un em pw r fn : String)
    (dep : Option String) :
    (create_user db un em pw r fn dep).2.sessions = db.sessions ∧
      (create_user db un em pw r fn dep).2.messages = db.messages ∧
      (create_user db un em pw r fn dep).2.nextUuid = db.nextUuid + 1 ∧
      (create_user db un em pw r fn dep).2.clock = db.clock := by
  unfold create_user; split <;> simp

theorem authenticate_user_tables (db : DB) (un pw : String) :
    (authenticate_user db un pw).2.sessions = db.sessions ∧
      (authenticate_user db un pw).2.messages = db.messages ∧
      (authenticate_user db un pw).2.analytics = db.analytics ∧
      (authenticate_user db un pw).2.nextUuid = db.nextUuid ∧
      (authenticate_user db un pw).2.clock = db.clock := by
  unfold authenticate_user
  cases hfu : findUser db un with
  | none => simp
  | some u =>
    dsimp only
    split <;> simp [update_last_login]

/-! Reachable-state invariants. -/

theorem reachable_session_id_lt {db : DB} (h : Reachable db) :
    ∀ s ∈ db.sessions, s.session_id < db.nextUuid := by
  induction h with
  | init => intro s hs; simp [emptyDB] at hs
  | tick db _ ih => exact ih
  | register db un em pw r fn dep _ ih =>
    intro s hs
    rcases create_user_other_tables db un em pw r fn dep with ⟨h1, _, h3, _⟩
    rw [h1] at hs; rw [h3]
    exact Nat.lt_succ_of_lt (ih s hs)
  | auth db un pw _ ih =>
    intro s hs
    rcases authenticate_user_tables db un pw with ⟨h1, _, _, h4, _⟩
    rw [h1] at hs; rw [h4]; exact ih s hs
  | start db uid _ ih =>
    intro s hs
    simp only [create_chat_session] at hs ⊢
    rcases List.mem_append.mp hs with hs | hs
    · exact Nat.lt_succ_of_lt (ih s hs)
    · rcases List.mem_singleton.mp hs with rfl
      exact Nat.lt_succ_self _
  | append db sid uid ty um ip br _ ih =>
    intro s hs
    simp only [save_message] at hs ⊢
    rcases List.mem_map.mp hs with ⟨s0, hs0, rfl⟩
    rw [touchSession_session_id]
    exact Nat.lt_succ_of_lt (ih s0 hs0)

/-! The effect of one save_message on the counters view. -/

theorem get_user_analytics_save (db : DB) (sid uid : Nat) (ty : MsgType)
    (um ip : Option String) (br : String)
    (h : db.analytics.any (fun a => a.user_id == uid) = true) :
    get_user_analytics (save_message db sid uid ty um ip br) uid =
      ⟨(get_user_analytics db uid).total_queries + 1,
       (get_user_analytics db uid).text_queries +
         (match ty with | .text => 1 | .image => 0),
       (get_user_analytics db uid).image_queries +
         (match ty with | .image => 1 | .text => 0),
       some db.clock⟩ := by
  obtain ⟨a, hf⟩ : ∃ a, db.analytics.find? (fun a => a.user_id == uid) = some a := by
    cases hfa : db.analytics.find? (fun a => a.user_id == uid) with
    | none =>
      rw [List.find?_eq_none] at hfa
      rcases List.any_eq_true.mp h with ⟨a, ha, hpa⟩
      exact absurd hpa (by simpa using hfa a ha)
    | some a => exact ⟨a, rfl⟩
  have hpa := List.find?_some hf
  unfold get_user_analytics save_message
  dsimp only
  rw [find?_map_bumpAnalytics, hf]
  have heq : a.user_id = uid := by simpa using hpa
  unfold bumpAnalytics
  simp [hpa, heq]

theorem any_appendN (db : DB) (sid uid : Nat) (ty : MsgType)
    (um ip : Option String) (br : String)
    (h : db.analytics.any (fun a => a.user_id == uid) = true) :
    ∀ n, (appendN db sid uid ty um ip br n).analytics.any
      (fun a => a.user_id == uid) = true := by
  intro n
  induction n with
  | zero => exact h
  | succ n ih =>
    show ((appendN db sid uid ty um ip br n).analytics.map
        (bumpAnalytics uid ty (appendN db sid uid ty um ip br n).clock)).any
        (fun a => a.user_id == uid) = true
    rw [any_map_bumpAnalytics]
    exact ih

theorem total_appendN (db : DB) (sid uid : Nat) (ty : MsgType)
    (um ip : Option String) (br : String)
    (h : db.analytics.any (fun a => a.user_id == uid) = true) :
    ∀ n, (get_user_analytics (appendN db sid uid ty um ip br n) uid).total_queries =
      (get_user_analytics db uid).total_queries + n := by
  intro n
  induction n with
  | zero => rfl
  | succ n ih =>
    show (get_user_analytics (save_message (appendN db sid uid ty um ip br n)
        sid uid ty um ip br) uid).total_queries = _
    rw [get_user_analytics_save _ sid uid ty um ip br
      (any_appendN db sid uid ty um ip br h n)]
    dsimp only
    rw [ih]
    omega

/-! Claim theorems. -/

/-- C1, counterexample to the claim as stated: on the empty store the
session id 5 is not registered and the user message is the empty string,
yet `save_message` signals no failure and does persist a message row —
the claimed UnknownSession / InvalidInput rejections do not exist in the
code. -/
theorem save_message_unknown_session_persists :
    emptyDB.sessions = [] ∧
      (save_message emptyDB 5 7 MsgType.text (some "") none "reply").messages =
        [⟨0, 5, 7, MsgType.text, some "", none, "reply", 0⟩] :=
  ⟨rfl, rfl⟩

/-- C1 (amended): `save_message` performs no session or input validation
and signals no error: it always appends the message row, while the
session touch and the counters update are silent no-ops whenever no
session row (respectively no counters row) matches — so for an
unregistered session id a message row is persisted with last-activity and
counters untouched. -/
theorem save_message_no_validation (db : DB) (sid uid : Nat) (ty : MsgType)
    (um ip : Option String) (br : String) :
    (save_message db sid uid ty um ip br).messages =
        db.messages ++ [⟨db.nextUuid, sid, uid, ty, um, ip, br, db.clock⟩] ∧
      ((∀ s ∈ db.sessions, s.session_id ≠ sid) →
        (save_message db sid uid ty um ip br).sessions = db.sessions) ∧
      ((∀ a ∈ db.analytics, a.user_id ≠ uid) →
        (save_message db sid uid ty um ip br).analytics = db.analytics) :=
  ⟨rfl, fun h => map_touchSession_of_absent h, fun h => map_bumpAnalytics_of_absent h⟩

/-- Witness for C1 (amended) at the empty store. -/
theorem save_message_no_validation_witness :
    (save_message emptyDB 5 7 MsgType.image none (some "d.png") "resp").sessions =
        emptyDB.sessions ∧
      (save_message emptyDB 5 7 MsgType.image none (some "d.png") "resp").analytics =
        emptyDB.analytics :=
  ⟨(save_message_no_validation emptyDB 5 7 MsgType.image none (some "d.png") "resp").2.1
      (by simp [emptyDB]),
   (save_message_no_validation emptyDB 5 7 MsgType.image none (some "d.png") "resp").2.2
      (by simp [emptyDB])⟩

/-- C2: in every state reachable from the empty store by register,
authenticate, start-session and append operations, every analytics row
satisfies total_queries = text_queries + image_queries. -/
theorem counters_equation_invariant {db : DB} (h : Reachable db) :
    ∀ a ∈ db.analytics, a.total_queries = a.text_queries + a.image_queries := by
  induction h with
  | init => intro a ha; exact absurd ha (by simp [emptyDB])
  | tick db _ ih => exact ih
  | register db un em pw r fn dep _ ih =>
    intro a ha
    unfold create_user at ha
    split at ha
    · exact ih a ha
    · rcases List.mem_append.mp ha with ha | ha
      · exact ih a ha
      · rcases List.mem_singleton.mp ha with rfl
        rfl
  | auth db un pw _ ih =>
    intro a ha
    rcases authenticate_user_tables db un pw with ⟨_, _, h3, _, _⟩
    rw [h3] at ha
    exact ih a ha
  | start db uid _ ih => exact ih
  | append db sid uid ty um ip br _ ih =>
    intro a ha
    rcases List.mem_map.mp ha with ⟨a0, ha0, rfl⟩
    have h0 := ih a0 ha0
    unfold bumpAnalytics
    split
    · cases ty <;> dsimp only <;> omega
    · exact h0

/-- Witness for C2 at the store holding one freshly registered user. -/
theorem counters_equation_invariant_witness :
    (⟨0, 0, 0, 0, none⟩ : AnalyticsRow) ∈ dbAlice.analytics ∧
      (⟨0, 0, 0, 0, none⟩ : AnalyticsRow).total_queries =
        (⟨0, 0, 0, 0, none⟩ : AnalyticsRow).text_queries +
          (⟨0, 0, 0, 0, none⟩ : AnalyticsRow).image_queries :=
  ⟨by decide,
   counters_equation_invariant
     (Reachable.register emptyDB "alice" "a@x.edu" "password1" "student"
       "Alice A" none Reachable.init)
     ⟨0, 0, 0, 0, none⟩ (by decide)⟩

/-- C3: a save_message for a user who has a counters row increments that
user's total_queries by exactly 1, increments the counter of the message
type by exactly 1 while leaving the other type counter unchanged, sets
the last-query timestamp to the current time, and appending n messages
raises total_queries by exactly n. -/
theorem record_query_increments (db : DB) (sid uid : Nat) (ty : MsgType)
    (um ip : Option String) (br : String)
    (h : db.analytics.any (fun a => a.user_id == uid) = true) :
    (get_user_analytics (save_message db sid uid ty um ip br) uid).total_queries =
        (get_user_analytics db uid).total_queries + 1 ∧
      (ty = MsgType.text →
        (get_user_analytics (save_message db sid uid ty um ip br) uid).text_queries =
            (get_user_analytics db uid).text_queries + 1 ∧
          (get_user_analytics (save_message db sid uid ty um ip br) uid).image_queries =
            (get_user_analytics db uid).image_queries) ∧
      (ty = MsgType.image →
        (get_user_analytics (save_message db sid uid ty um ip br) uid).image_queries =
            (get_user_analytics db uid).image_queries + 1 ∧
          (get_user_analytics (save_message db sid uid ty um ip br) uid).text_queries =
            (get_user_analytics db uid).text_queries) ∧
      (get_user_analytics (save_message db sid uid ty um ip br) uid).last_query_date =
        some db.clock ∧
      (∀ n, (get_user_analytics (appendN db sid uid ty um ip br n) uid).total_queries =
        (get_user_analytics db uid).total_queries + n) := by
  rw [get_user_analytics_save db sid uid ty um ip br h]
  refine ⟨rfl, fun hty => ?_, fun hty => ?_, rfl,
    total_appendN db sid uid ty um ip br h⟩
  · subst hty; exact ⟨rfl, rfl⟩
  · subst hty; exact ⟨rfl, rfl⟩

/-- Witness for C3: one text append for the registered user of dbAlice. -/
theorem record_query_increments_witness :
    dbAlice.analytics.any (fun a => a.user_id == 0) = true ∧
      (get_user_analytics (save_message dbAlice 3 0 MsgType.text (some "hi")
          none "hello") 0).total_queries =
        (get_user_analytics dbAlice 0).total_queries + 1 :=
  ⟨by decide,
   (record_query_increments dbAlice 3 0 MsgType.text (some "hi") none "hello"
     (by decide)).1⟩

/-- Monotonicity of the NULL-aware sort key under the NULL-to-0
projection of the platform snapshot. -/
theorem platKey_mono {a b : UserRow × Option AnalyticsRow}
    (h : platKey b ≤ platKey a) :
    (platProject b).total_queries ≤ (platProject a).total_queries := by
  rcases a with ⟨u1, _ | a1⟩ <;> rcases b with ⟨u2, _ | a2⟩ <;>
    simp only [platKey, platProject] at h ⊢ <;> omega

/-- C4, counterexample to the username tie-break: with bob registered
before alice and both tied at zero total queries, the snapshot lists bob
first even though alice's username is strictly smaller, so ties are not
broken by username ascending. -/
theorem platform_snapshot_tie_not_username :
    (get_all_users_analytics dbBobAlice).map (fun r => r.username) =
        ["bob", "alice"] ∧
      (get_all_users_analytics dbBobAlice).map (fun r => r.total_queries) =
        [0, 0] ∧
      ("alice" < "bob") :=
  ⟨by decide, by decide, String.lt_iff_toList_lt.mpr (by decide)⟩

/-- C4 (amended): the platform snapshot contains exactly the active users
(a permutation of the active-filtered, counters-joined projection), is
ordered by total query count descending, and rows tying on the sort key
keep their users-table insertion (registration) order — they are not
re-ordered by username. -/
theorem platform_snapshot_active_sorted (db : DB) :
    List.Perm (get_all_users_analytics db)
        ((db.users.filter (fun u => u.is_active)).map
          (fun u => platProject (joinRow db u))) ∧
      (get_all_users_analytics db).Pairwise
        (fun a b => b.total_queries ≤ a.total_queries) ∧
      (∀ t : Int, (sortByKeyDesc platKey (platformRows db)).filter
          (fun p => platKey p == t) =
        (platformRows db).filter (fun p => platKey p == t)) := by
  refine ⟨?_, ?_, fun t => sortByKeyDesc_filter platKey t (platformRows db)⟩
  · have hp := (sortByKeyDesc_perm platKey (platformRows db)).map platProject
    refine hp.trans ?_
    unfold platformRows
    rw [List.map_map]
    exact List.Perm.refl _
  · exact List.Pairwise.map platProject (fun a b hab => platKey_mono hab)
      (sortByKeyDesc_pairwise platKey (platformRows db))

/-- C5: the history of a user is at most `limit` long, every returned
entry projects a message of that user, timestamps are newest first, and
messages tying on the timestamp sort key stay in ledger insertion
order. -/
theorem chat_history_order (db : DB) (uid : Nat) (limit : Nat) :
    (get_chat_history db uid limit).length ≤ limit ∧
      (get_chat_history db uid limit).Pairwise
        (fun a b => b.timestamp ≤ a.timestamp) ∧
      (∀ e ∈ get_chat_history db uid limit,
        ∃ m ∈ db.messages, m.user_id = uid ∧ e = projectHistory m) ∧
      (∀ t : Int, (sortByKeyDesc tsKey (historyRows db uid)).filter
          (fun m => tsKey m == t) =
        (historyRows db uid).filter (fun m => tsKey m == t)) := by
  refine ⟨?_, ?_, ?_, fun t => sortByKeyDesc_filter tsKey t (historyRows db uid)⟩
  · simp only [get_chat_history, List.length_map, List.length_take]
    omega
  · have h1 := sortByKeyDesc_pairwise tsKey (historyRows db uid)
    have h2 := List.Pairwise.sublist
      (List.take_sublist limit (sortByKeyDesc tsKey (historyRows db uid))) h1
    exact List.Pairwise.map projectHistory
      (fun a b hab => by
        simp only [projectHistory, tsKey] at hab ⊢
        exact_mod_cast hab) h2
  · intro e he
    rcases List.mem_map.mp he with ⟨m, hm, rfl⟩
    have hm2 : m ∈ sortByKeyDesc tsKey (historyRows db uid) :=
      List.take_subset _ _ hm
    have hm3 : m ∈ historyRows db uid :=
      (sortByKeyDesc_perm tsKey _).mem_iff.mp hm2
    have hm4 := List.mem_filter.mp hm3
    refine ⟨m, hm4.1, ?_, rfl⟩
    simp only [Bool.and_eq_true] at hm4
    simpa using hm4.2.1

/-- C6: registering a username (or an email) that exactly matches an
existing row — active or not — fails with the duplicate signal (the
boolean False of create_user) and adds neither a user row nor a counters
row. -/
theorem duplicate_identity_rejected (db : DB) (un em pw role fn : String)
    (dep : Option String)
    (h : (∃ u ∈ db.users, u.username = un) ∨ (∃ u ∈ db.users, u.email = em)) :
    (create_user db un em pw role fn dep).1 = false ∧
      (create_user db un em pw role fn dep).2.users = db.users ∧
      (create_user db un em pw role fn dep).2.analytics = db.analytics := by
  have hc : db.users.any (fun u =>
      u.user_id == db.nextUuid || u.username == un || u.email == em) = true := by
    rw [List.any_eq_true]
    rcases h with ⟨u, hu, he⟩ | ⟨u, hu, he⟩
    · exact ⟨u, hu, by simp [he]⟩
    · exact ⟨u, hu, by simp [he]⟩
  unfold create_user
  rw [hc]
  simp

/-- Witness for C6: re-registering the username alice on dbAlice. -/
theorem duplicate_identity_rejected_witness :
    (create_user dbAlice "alice" "other@x.edu" "password2" "student" "Al" none).1 =
        false ∧
      (create_user dbAlice "alice" "other@x.edu" "password2" "student" "Al" none).2.users =
        dbAlice.users := by
  have h := duplicate_identity_rejected dbAlice "alice" "other@x.edu" "password2"
    "student" "Al" none (Or.inl (by decide))
  exact ⟨h.1, h.2.1⟩

/-- C7: authentication with an existing username and a non-verifying
password, with a username that matches no user, and with a deactivated
account all return the same observable result None and leave the store
unchanged — the three failure causes are externally indistinguishable. -/
theorem invalid_credentials_uniform (db : DB) (un1 pw1 un2 pw2 un3 pw3 : String)
    (h1 : ∃ u, findUser db un1 = some u ∧ checkpw pw1 u.password_hash = false)
    (h2 : findUser db un2 = none)
    (h3 : ∃ u, findUser db un3 = some u ∧ u.is_active = false) :
    (authenticate_user db un1 pw1).1 = none ∧
      (authenticate_user db un2 pw2).1 = none ∧
      (authenticate_user db un3 pw3).1 = none ∧
      (authenticate_user db un1 pw1).2 = db ∧
      (authenticate_user db un2 pw2).2 = db ∧
      (authenticate_user db un3 pw3).2 = db := by
  rcases h1 with ⟨u1, hf1, hp1⟩
  rcases h3 with ⟨u3, hf3, ha3⟩
  unfold authenticate_user
  rw [hf1, h2, hf3]
  simp [hp1, ha3]

/-- Witness for C7 on a store with one active and one deactivated user:
wrong password, unknown username and deactivated account all yield
None. -/
theorem invalid_credentials_uniform_witness :
    (authenticate_user dbCarol "alice" "wrongpw").1 = none ∧
      (authenticate_user dbCarol "bob" "password1").1 = none ∧
      (authenticate_user dbCarol "carol" "password2").1 = none := by
  have h := invalid_credentials_uniform dbCarol "alice" "wrongpw" "bob"
    "password1" "carol" "password2"
    ⟨⟨0, "alice", "a@x.edu", hashpw "password1", "student", "Alice A", none, 0,
        none, true⟩, by decide, by decide⟩
    (by decide)
    ⟨⟨1, "carol", "c@x.edu", hashpw "password2", "student", "Carol C", none, 0,
        none, false⟩, by decide, by decide⟩
  exact ⟨h.1, h.2.1, h.2.2.1⟩

/-- C8: a registration that succeeds (fresh username, email and uuid,
valid role) makes a subsequent authenticate with the same credentials
succeed, returning exactly the six-field projection of the registration
inputs — a UserInfo value, which has no password-hash field. -/
theorem register_then_authenticate (db : DB) (un em pw role fn : String)
    (dep : Option String)
    (hU : ∀ u ∈ db.users, u.username ≠ un)
    (hE : ∀ u ∈ db.users, u.email ≠ em)
    (hI : ∀ u ∈ db.users, u.user_id ≠ db.nextUuid)
    (hR : role = "student" ∨ role = "faculty") :
    (create_user db un em pw role fn dep).1 = true ∧
      (authenticate_user (create_user db un em pw role fn dep).2 un pw).1 =
        some ⟨db.nextUuid, un, em, role, fn, dep⟩ := by
  have hc : (db.users.any (fun u =>
      u.user_id == db.nextUuid || u.username == un || u.email == em)
      || !(role == "student" || role == "faculty")) = false := by
    rw [Bool.or_eq_false_iff]
    constructor
    · rw [List.any_eq_false]
      intro u hu
      simp [hI u hu, hU u hu, hE u hu]
    · rcases hR with rfl | rfl <;> simp
  have hnone : db.users.find? (fun u => u.username == un) = none := by
    rw [List.find?_eq_none]
    intro u hu
    simp [hU u hu]
  have hcu : create_user db un em pw role fn dep =
      (true, { db with
        users := db.users ++
          [⟨db.nextUuid, un, em, hashpw pw, role, fn, dep, db.clock, none, true⟩],
        analytics := db.analytics ++ [⟨db.nextUuid, 0, 0, 0, none⟩],
        nextUuid := db.nextUuid + 1 }) := by
    unfold create_user
    rw [hc]
    rfl
  rw [hcu]
  refine ⟨rfl, ?_⟩
  unfold authenticate_user findUser
  dsimp only
  rw [find?_append_none _ hnone]
  have hfind : List.find? (fun u => u.username == un)
      [(⟨db.nextUuid, un, em, hashpw pw, role, fn, dep, db.clock, none, true⟩ :
        UserRow)] =
      some ⟨db.nextUuid, un, em, hashpw pw, role, fn, dep, db.clock, none, true⟩ := by
    apply List.find?_cons_of_pos
    simp
  rw [hfind]
  simp [checkpw]

/-- Witness for C8: registering alice on the empty store and logging in
with her password. -/
theorem register_then_authenticate_witness :
    (create_user emptyDB "alice" "a@x.edu" "password1" "student" "Alice A"
        none).1 = true ∧
      (authenticate_user (create_user emptyDB "alice" "a@x.edu" "password1"
          "student" "Alice A" none).2 "alice" "password1").1 =
        some ⟨0, "alice", "a@x.edu", "student", "Alice A", none⟩ :=
  register_then_authenticate emptyDB "alice" "a@x.edu" "password1" "student"
    "Alice A" none (by simp [emptyDB]) (by simp [emptyDB]) (by simp [emptyDB])
    (Or.inl rfl)

/-- C9, counterexample to the claim as stated: the empty store has no
users at all, yet create_chat_session for user id 42 succeeds and creates
a session record — there is no UnknownUser failure. -/
theorem start_session_unknown_user_succeeds :
    emptyDB.users = [] ∧
      (create_chat_session emptyDB 42).2.sessions = [⟨0, 42, 0, 0⟩] :=
  ⟨rfl, rfl⟩

/-- C9 (amended): create_chat_session never fails and performs no
user-existence check: for any user id it appends one session record
carrying the returned identifier, and in every reachable store that
identifier differs from every previously issued session id. -/
theorem start_session_always_succeeds (db : DB) (uid : Nat) :
    (create_chat_session db uid).2.sessions =
        db.sessions ++
          [⟨(create_chat_session db uid).1, uid, db.clock, db.clock⟩] ∧
      (Reachable db →
        ∀ s ∈ db.sessions, s.session_id ≠ (create_chat_session db uid).1) := by
  refine ⟨rfl, fun h s hs => ?_⟩
  have hlt := reachable_session_id_lt h s hs
  show s.session_id ≠ db.nextUuid
  omega

/-- Witness for C9 (amended): after registering alice and starting one
session, the next session id is fresh. -/
theorem start_session_always_succeeds_witness :
    (⟨1, 0, 0, 0⟩ : SessionRow).session_id ≠
      (create_chat_session (create_chat_session dbAlice 0).2 7).1 :=
  (start_session_always_succeeds (create_chat_session dbAlice 0).2 7).2
    (Reachable.start dbAlice 0
      (Reachable.register emptyDB "alice" "a@x.edu" "password1" "student"
        "Alice A" none Reachable.init))
    ⟨1, 0, 0, 0⟩ (by decide)

/-- C10: a registration passing all field validations but carrying a role
outside student/faculty is rejected by the CHECK constraint inside
create_user, and register_user reports it with the same duplicate-identity
message used for username/email collisions; no user row and no counters
row is created. -/
theorem bad_role_reported_as_duplicate (db : DB) (un em pw role fn : String)
    (dep : Option String)
    (h1 : ¬ un.length < 3) (h2 : ¬ pw.length < 6)
    (h3 : (em.data.contains '@') = true) (h4 : (em.data.contains '.') = true)
    (h5 : (fn.data.all Char.isWhitespace) = false)
    (h6 : role ≠ "student") (h7 : role ≠ "faculty") :
    (register_user db un em pw pw role fn dep).1 =
        (false, "Username or email already exists") ∧
      (register_user db un em pw pw role fn dep).2.users = db.users ∧
      (register_user db un em pw pw role fn dep).2.analytics = db.analytics := by
  have hrole : (role == "student" || role == "faculty") = false := by
    simp [h6, h7]
  have hcond : (db.users.any (fun u =>
      u.user_id == db.nextUuid || u.username == un || u.email == em)
      || !(role == "student" || role == "faculty")) = true := by
    rw [hrole]
    simp
  have hcu : create_user db un em pw role fn dep =
      (false, { db with nextUuid := db.nextUuid + 1 }) := by
    unfold create_user
    rw [hcond]
    rfl
  have hem : ¬ ((!(em.data.contains '@') || !(em.data.contains '.')) = true) := by
    simp
    exact ⟨by simpa using h3, by simpa using h4⟩
  unfold register_user
  rw [if_neg h1, if_neg h2]
  rw [if_neg (show ¬ (pw != pw) = true by simp)]
  rw [if_neg hem]
  rw [if_neg (show ¬ (fn.data.all Char.isWhitespace) = true by simp [h5])]
  rw [hcu]
  exact ⟨rfl, rfl, rfl⟩

/-- Witness for C10: registering with role admin on the empty store. -/
theorem bad_role_reported_as_duplicate_witness :
    (register_user emptyDB "alice" "a@x.edu" "password1" "password1" "admin"
        "Alice A" none).1 = (false, "Username or email already exists") ∧
      (register_user emptyDB "alice" "a@x.edu" "password1" "password1" "admin"
        "Alice A" none).2.users = emptyDB.users := by
  have h := bad_role_reported_as_duplicate emptyDB "alice" "a@x.edu" "password1"
    "admin" "Alice A" none (by decide) (by decide) (by decide) (by decide)
    (by decide) (by decide) (by decide)
  exact ⟨h.1, h.2.1⟩
